import Mathlib

/-!
Shallow embedding of the forecasting and depletion-simulation core of the
fba_replenisher repository (src/outflow_predicter.py and
src/replenishment_report.py), together with theorems settling the frozen
claims about its natural-language specification.

Modelling conventions:
- calendar dates are integers (days); pandas timestamps in this code are
  always midnight-normalised, so their order and arithmetic is integer
  order and arithmetic;
- past sales quantities are integers (QuantityOrdered is cast to int and
  aggregated by sum); forecasted values and running inventory levels are
  rationals (the code stores them as floats, and every value arising here
  is a finite rational: integer sums, means of integers, and differences
  of those, so rational arithmetic is exact and faithful);
- a pandas DataFrame with a date index and one column per SKU is a
  structure holding the row-index list, the column list, and a total cell
  function (pandas lookups of rows and columns present in the frame);
- Python exceptions become an Except value.  The only exceptions reachable
  in the embedded core are the TypeError raised by int() on a selection
  that does not have exactly one row, and the ValueError raised by
  pandas date_range on a negative period count.
-/

namespace FbaReplenisher

/-- Exceptions reachable in the embedded core.  missingInventoryLevel
models the TypeError raised by int() applied to the inventory-level
selection for a SKU when that selection does not consist of exactly one
row; the constructor carries the SKU whose lookup failed.  valueError
models the ValueError raised by pandas date_range on a negative number of
periods. -/
inductive PyErr where
  | missingInventoryLevel (sku : String)
  | valueError
deriving DecidableEq, Repr

/-- A future-sales matrix: one row per date, one column per SKU, rational
cell values (the code stores floats produced as means of integers). -/
structure FutureMatrix where
  rows : List Int
  cols : List String
  cell : Int → String → Rat

/-- Inventory levels as read from the inventory CSV: a list of rows, each
holding a sellerSku and a totalQuantity. -/
abbrev Inventory := List (String × Int)

/-- Embeds the inventory lookup
`int(self.inventory_levels[self.inventory_levels["sellerSku"] == sku]["totalQuantity"])`:
the boolean mask keeps the rows whose sellerSku equals the given SKU, and
int() succeeds exactly when that selection has one row, raising TypeError
otherwise. -/
def lookupInventory (inv : Inventory) (sku : String) : Except PyErr Int :=
  match inv.filter (fun p => p.1 == sku) with
  | [p] => .ok p.2
  | _ => .error (.missingInventoryLevel sku)

/-- Embeds the inner loop of `_predict_out_of_stock_dates` for one SKU:
walk the future dates in index order, subtract the forecast of each date
from the running level, and return the first date at which the level is
strictly negative, stopping there; return none when the level never goes
negative. -/
def walkOutOfStock (cell : Int → Rat) (dates : List Int) (level : Rat) :
    Option Int :=
  match dates with
  | [] => none
  | d :: rest =>
      let level' := level - cell d
      if level' < 0 then some d else walkOutOfStock cell rest level'

/-- Embeds the inner loop of `propose_replenishment_quantities` for one
SKU: walk the future dates in index order, subtract the forecast of each
date from the running level, and at the first date on or after the target
date record the negated level, stopping there; return none when no date
reaches the target date. -/
def walkReplenish (cell : Int → Rat) (dates : List Int) (untilDate : Int)
    (level : Rat) : Option Rat :=
  match dates with
  | [] => none
  | d :: rest =>
      let level' := level - cell d
      if untilDate ≤ d then some (-level')
      else walkReplenish cell rest untilDate level'

/-- Embeds the per-SKU loop of `_predict_out_of_stock_dates` over the
given column list: look up the inventory level of each SKU (propagating
the lookup exception) and record the out-of-stock date of the SKUs whose
walk produces one. -/
def oosPerSku (future : FutureMatrix) (inv : Inventory) :
    List String → Except PyErr (List (String × Int))
  | [] => .ok []
  | sku :: rest =>
      match lookupInventory inv sku with
      | .error e => .error e
      | .ok q =>
          match oosPerSku future inv rest with
          | .error e => .error e
          | .ok tail =>
              match walkOutOfStock (fun d => future.cell d sku) future.rows
                  (q : Rat) with
              | some d => .ok ((sku, d) :: tail)
              | none => .ok tail

/-- Embeds `_predict_out_of_stock_dates`: iterate over the columns of the
future matrix. -/
def predict_out_of_stock (future : FutureMatrix) (inv : Inventory) :
    Except PyErr (List (String × Int)) :=
  oosPerSku future inv future.cols

/-- Embeds the per-SKU loop of `propose_replenishment_quantities` over the
given column list. -/
def replPerSku (future : FutureMatrix) (inv : Inventory) (untilDate : Int) :
    List String → Except PyErr (List (String × Rat))
  | [] => .ok []
  | sku :: rest =>
      match lookupInventory inv sku with
      | .error e => .error e
      | .ok q =>
          match replPerSku future inv untilDate rest with
          | .error e => .error e
          | .ok tail =>
              match walkReplenish (fun d => future.cell d sku) future.rows
                  untilDate (q : Rat) with
              | some r => .ok ((sku, r) :: tail)
              | none => .ok tail

/-- Embeds `propose_replenishment_quantities`: iterate over the columns of
the future matrix. -/
def propose_replenishment (future : FutureMatrix) (inv : Inventory)
    (untilDate : Int) : Except PyErr (List (String × Rat)) :=
  replPerSku future inv untilDate future.cols

/-- Cumulative forecast of the first n dates of a column. -/
def sumTake (cell : Int → Rat) (dates : List Int) (n : Nat) : Rat :=
  ((dates.take n).map cell).sum

/-- Spec-words counterpart of the out-of-stock walk, for comparison with
walkOutOfStock: the first date at which the running level - starting level
minus the cumulative forecast through that date - is strictly negative,
none when no such date exists over the horizon. -/
def firstNegDateSpec (cell : Int → Rat) (dates : List Int) (level : Rat) :
    Option Int :=
  ((List.range dates.length).find?
      (fun i => decide (level - sumTake cell dates (i + 1) < 0))).bind
    (fun i => dates[i]?)

/-- Spec-words counterpart of the replenishment walk, for comparison with
walkReplenish: find the first date on or after the target date (all dates
before it lie strictly before the target date); when it exists the
recorded value is the cumulative forecast through that date minus the
starting level, and when the whole horizon lies strictly before the target
date nothing is recorded. -/
def replenishSpec (cell : Int → Rat) (dates : List Int) (untilDate : Int)
    (level : Rat) : Option Rat :=
  let k := (dates.takeWhile (fun d => decide (d < untilDate))).length
  if k < dates.length then some (sumTake cell dates (k + 1) - level)
  else none

section WalkLemmas

/-- The out-of-stock walk stops at the first date whose cumulative
forecast pushes the starting level strictly below zero. -/
theorem walkOutOfStock_eq_spec (cell : Int → Rat) :
    ∀ (dates : List Int) (level : Rat),
      walkOutOfStock cell dates level = firstNegDateSpec cell dates level := by
  intro dates
  induction dates with
  | nil => intro level; rfl
  | cons d rest ih =>
      intro level
      have hpred : ∀ i : Nat,
          (decide (level - sumTake cell (d :: rest) (i + 1 + 1) < 0))
            = (decide (level - cell d - sumTake cell rest (i + 1) < 0)) := by
        intro i
        have : level - sumTake cell (d :: rest) (i + 1 + 1)
            = level - cell d - sumTake cell rest (i + 1) := by
          simp [sumTake, List.take_succ_cons, sub_sub]
        rw [this]
      rw [walkOutOfStock]
      by_cases h : level - cell d < 0
      · simp only [h, if_pos]
        have h1 : sumTake cell (d :: rest) 1 = cell d := by
          simp [sumTake]
        unfold firstNegDateSpec
        rw [List.length_cons, List.range_succ_eq_map, List.find?_cons]
        have hp0 : decide (level - sumTake cell (d :: rest) (0 + 1) < 0) = true := by
          rw [h1]; exact decide_eq_true h
        rw [hp0]
        simp
      · simp only [h, if_neg, not_false_eq_true]
        rw [ih (level - cell d)]
        unfold firstNegDateSpec
        rw [List.length_cons, List.range_succ_eq_map, List.find?_cons]
        have h1 : sumTake cell (d :: rest) 1 = cell d := by
          simp [sumTake]
        have hp0 : decide (level - sumTake cell (d :: rest) (0 + 1) < 0) = false := by
          rw [h1]; exact decide_eq_false h
        rw [hp0]
        rw [List.find?_map]
        have hcomp :
            ((fun i => decide (level - sumTake cell (d :: rest) (i + 1) < 0))
                ∘ Nat.succ)
              = (fun i => decide (level - cell d - sumTake cell rest (i + 1) < 0)) := by
          funext i
          exact hpred i
        rw [hcomp]
        cases hf : (List.range rest.length).find?
            (fun i => decide (level - cell d - sumTake cell rest (i + 1) < 0)) with
        | none => rfl
        | some i => simp [Option.bind]

/-- The replenishment walk stops at the first date on or after the target
date and records the cumulative forecast through that date minus the
starting level, whatever the sign of the remaining level. -/
theorem walkReplenish_eq_spec (cell : Int → Rat) (untilDate : Int) :
    ∀ (dates : List Int) (level : Rat),
      walkReplenish cell dates untilDate level
        = replenishSpec cell dates untilDate level := by
  intro dates
  induction dates with
  | nil => intro level; rfl
  | cons d rest ih =>
      intro level
      rw [walkReplenish]
      by_cases h : untilDate ≤ d
      · simp only [h, if_pos]
        have hstop : decide (d < untilDate) = false :=
          decide_eq_false (not_lt.mpr h)
        unfold replenishSpec
        rw [List.takeWhile_cons, hstop]
        simp only [Bool.false_eq_true, if_false, List.length_nil, List.length_cons,
          Nat.zero_lt_succ, if_pos]
        have : sumTake cell (d :: rest) (0 + 1) = cell d := by simp [sumTake]
        rw [this]
        rw [neg_sub]
      · simp only [h, if_neg, not_false_eq_true]
        rw [ih (level - cell d)]
        have hgo : decide (d < untilDate) = true :=
          decide_eq_true (not_le.mp h)
        unfold replenishSpec
        rw [List.takeWhile_cons, hgo]
        simp only [if_true, List.length_cons]
        have hlen : ((rest.takeWhile fun d => decide (d < untilDate)).length + 1
            < rest.length + 1)
            ↔ ((rest.takeWhile fun d => decide (d < untilDate)).length
            < rest.length) := by omega
        by_cases hk : (rest.takeWhile fun d => decide (d < untilDate)).length
            < rest.length
        · rw [if_pos hk, if_pos (hlen.mpr hk)]
          have : sumTake cell (d :: rest)
              ((rest.takeWhile fun d => decide (d < untilDate)).length + 1 + 1)
              = cell d + sumTake cell rest
                  ((rest.takeWhile fun d => decide (d < untilDate)).length + 1) := by
            simp [sumTake, List.take_succ_cons]
          rw [this]
          ring_nf
        · rw [if_neg hk, if_neg (fun hc => hk (hlen.mp hc))]

end WalkLemmas

section PerSkuLemmas

/-- When every listed SKU has a successful inventory lookup, the
out-of-stock loop succeeds and records exactly the SKUs whose walk finds a
negative date, each paired with that date, in column order. -/
theorem oosPerSku_ok (future : FutureMatrix) (inv : Inventory)
    (lvl : String → Int) :
    ∀ (cols : List String),
      (∀ sku ∈ cols, lookupInventory inv sku = .ok (lvl sku)) →
      oosPerSku future inv cols
        = .ok (cols.filterMap (fun sku =>
            (walkOutOfStock (fun d => future.cell d sku) future.rows
                ((lvl sku : Int) : Rat)).map (fun d => (sku, d)))) := by
  intro cols
  induction cols with
  | nil => intro _; rfl
  | cons sku rest ih =>
      intro hinv
      have hsku : lookupInventory inv sku = .ok (lvl sku) :=
        hinv sku (List.mem_cons_self sku rest)
      have hrest : ∀ s ∈ rest, lookupInventory inv s = .ok (lvl s) :=
        fun s hs => hinv s (List.mem_cons_of_mem sku hs)
      rw [oosPerSku]
      rw [hsku, ih hrest]
      cases hw : walkOutOfStock (fun d => future.cell d sku) future.rows
          ((lvl sku : Int) : Rat) with
      | none => simp [List.filterMap_cons, hw]
      | some d => simp [List.filterMap_cons, hw]

/-- When every listed SKU has a successful inventory lookup, the
replenishment loop succeeds and records exactly the SKUs whose walk
reaches the target date, each paired with the recorded quantity, in column
order. -/
theorem replPerSku_ok (future : FutureMatrix) (inv : Inventory)
    (untilDate : Int) (lvl : String → Int) :
    ∀ (cols : List String),
      (∀ sku ∈ cols, lookupInventory inv sku = .ok (lvl sku)) →
      replPerSku future inv untilDate cols
        = .ok (cols.filterMap (fun sku =>
            (walkReplenish (fun d => future.cell d sku) future.rows untilDate
                ((lvl sku : Int) : Rat)).map (fun r => (sku, r)))) := by
  intro cols
  induction cols with
  | nil => intro _; rfl
  | cons sku rest ih =>
      intro hinv
      have hsku : lookupInventory inv sku = .ok (lvl sku) :=
        hinv sku (List.mem_cons_self sku rest)
      have hrest : ∀ s ∈ rest, lookupInventory inv s = .ok (lvl s) :=
        fun s hs => hinv s (List.mem_cons_of_mem sku hs)
      rw [replPerSku]
      rw [hsku, ih hrest]
      cases hw : walkReplenish (fun d => future.cell d sku) future.rows untilDate
          ((lvl sku : Int) : Rat) with
      | none => simp [List.filterMap_cons, hw]
      | some r => simp [List.filterMap_cons, hw]

/-- A SKU with no inventory row makes the lookup fail with the error that
names it. -/
theorem lookupInventory_missing (inv : Inventory) (sku : String)
    (hmiss : ∀ p ∈ inv, p.1 ≠ sku) :
    lookupInventory inv sku = .error (.missingInventoryLevel sku) := by
  have hfilter : inv.filter (fun p => p.1 == sku) = [] := by
    rw [List.filter_eq_nil_iff]
    intro p hp
    simp only [beq_iff_eq]
    exact fun hc => hmiss p hp (by exact_mod_cast hc)
  unfold lookupInventory
  rw [hfilter]

/-- When the first listed SKU without an inventory row is sku, the
out-of-stock loop fails with the error naming sku. -/
theorem oosPerSku_missing (future : FutureMatrix) (inv : Inventory)
    (sku : String) (hmiss : ∀ p ∈ inv, p.1 ≠ sku) :
    ∀ (cols : List String), sku ∈ cols →
      (∀ s ∈ cols, s ≠ sku → ∃ q, lookupInventory inv s = .ok q) →
      oosPerSku future inv cols = .error (.missingInventoryLevel sku) := by
  intro cols
  induction cols with
  | nil => intro h; exact absurd h (List.not_mem_nil sku)
  | cons s rest ih =>
      intro hmem hok
      rw [oosPerSku]
      by_cases hs : s = sku
      · subst hs
        rw [lookupInventory_missing inv s hmiss]
      · obtain ⟨q, hq⟩ := hok s (List.mem_cons_self s rest) hs
        rw [hq]
        have hmemr : sku ∈ rest := by
          cases List.mem_cons.mp hmem with
          | inl h => exact absurd h.symm hs
          | inr h => exact h
        have hokr : ∀ t ∈ rest, t ≠ sku → ∃ q, lookupInventory inv t = .ok q :=
          fun t ht => hok t (List.mem_cons_of_mem s ht)
        rw [ih hmemr hokr]

/-- When the first listed SKU without an inventory row is sku, the
replenishment loop fails with the error naming sku. -/
theorem replPerSku_missing (future : FutureMatrix) (inv : Inventory)
    (untilDate : Int) (sku : String) (hmiss : ∀ p ∈ inv, p.1 ≠ sku) :
    ∀ (cols : List String), sku ∈ cols →
      (∀ s ∈ cols, s ≠ sku → ∃ q, lookupInventory inv s = .ok q) →
      replPerSku future inv untilDate cols
        = .error (.missingInventoryLevel sku) := by
  intro cols
  induction cols with
  | nil => intro h; exact absurd h (List.not_mem_nil sku)
  | cons s rest ih =>
      intro hmem hok
      rw [replPerSku]
      by_cases hs : s = sku
      · subst hs
        rw [lookupInventory_missing inv s hmiss]
      · obtain ⟨q, hq⟩ := hok s (List.mem_cons_self s rest) hs
        rw [hq]
        have hmemr : sku ∈ rest := by
          cases List.mem_cons.mp hmem with
          | inl h => exact absurd h.symm hs
          | inr h => exact h
        have hokr : ∀ t ∈ rest, t ≠ sku → ∃ q, lookupInventory inv t = .ok q :=
          fun t ht => hok t (List.mem_cons_of_mem s ht)
        rw [ih hmemr hokr]

end PerSkuLemmas

section MoreWalkLemmas

/-- When every date of the horizon lies strictly before the target date,
the replenishment walk records nothing. -/
theorem walkReplenish_none_of_beyond (cell : Int → Rat) (untilDate : Int) :
    ∀ (dates : List Int) (level : Rat), (∀ d ∈ dates, d < untilDate) →
      walkReplenish cell dates untilDate level = none := by
  intro dates
  induction dates with
  | nil => intro level _; rfl
  | cons d rest ih =>
      intro level hall
      rw [walkReplenish]
      have hd : ¬ untilDate ≤ d := not_le.mpr (hall d (List.mem_cons_self d rest))
      rw [if_neg hd]
      exact ih (level - cell d) (fun e he => hall e (List.mem_cons_of_mem d he))

end MoreWalkLemmas

section Fixtures

/-- Single-date future matrix with one SKU A whose forecast is 5. -/
def futA : FutureMatrix := { rows := [0], cols := ["A"], cell := fun _ _ => 5 }

/-- Two-date future matrix with one SKU B whose forecast is 3. -/
def futB : FutureMatrix := { rows := [0, 1], cols := ["B"], cell := fun _ _ => 3 }

/-- Three-date future matrix with one SKU A whose forecast is 5, the
shortfall scenario of the spec. -/
def futA3 : FutureMatrix :=
  { rows := [0, 1, 2], cols := ["A"], cell := fun _ _ => 5 }

end Fixtures

section ClaimsDepletion

/-- C1 counterexample: with inventory 10 for SKU A, a one-day horizon
forecasting 5, and the target date equal to the first forecast date, the
simulated level at the stopping date is 5, which is nonnegative, yet
propose_replenishment records the entry (A, -5): an entry is recorded with
a strictly negative quantity, contradicting the claim that no entry is
recorded when the level is nonnegative and that every recorded quantity is
nonnegative. -/
theorem propose_replenishment_nonneg_cex :
    propose_replenishment futA [("A", 10)] 0 = .ok [("A", (-5 : Rat))]
      ∧ ((-5 : Rat) < 0) := by
  constructor
  · norm_num [propose_replenishment, futA, replPerSku, lookupInventory,
      walkReplenish]
  · norm_num

/-- C1 (amended): at the first date reaching the target date the walk
always records the negated level, that is the cumulative forecast through
that date minus the starting inventory, whether or not the level is
negative; no entry is recorded only when the walk never reaches the target
date. -/
theorem propose_replenishment_records_neg_level (future : FutureMatrix)
    (inv : Inventory) (untilDate : Int) (lvl : String → Int)
    (hinv : ∀ sku ∈ future.cols, lookupInventory inv sku = .ok (lvl sku)) :
    propose_replenishment future inv untilDate
      = .ok (future.cols.filterMap (fun sku =>
          (replenishSpec (fun d => future.cell d sku) future.rows untilDate
              ((lvl sku : Int) : Rat)).map (fun r => (sku, r)))) := by
  rw [propose_replenishment,
    replPerSku_ok future inv untilDate lvl future.cols hinv]
  have hfun : (fun sku =>
        (walkReplenish (fun d => future.cell d sku) future.rows untilDate
            ((lvl sku : Int) : Rat)).map (fun r => (sku, r)))
      = (fun sku =>
        (replenishSpec (fun d => future.cell d sku) future.rows untilDate
            ((lvl sku : Int) : Rat)).map (fun r => (sku, r))) := by
    funext sku
    rw [walkReplenish_eq_spec]
  rw [hfun]

/-- C1 amended witness: SKU B with inventory 4, forecasts 3 and 3, target
date 1: the walk stops at date 1 with level -2 and records 2. -/
theorem propose_replenishment_records_neg_level_witness :
    propose_replenishment futB [("B", 4)] 1 = .ok [("B", (2 : Rat))] := by
  rw [propose_replenishment_records_neg_level futB [("B", 4)] 1 (fun _ => 4)
    (by
      intro sku hsku
      rw [show futB.cols = ["B"] from rfl, List.mem_singleton] at hsku
      subst hsku
      rfl)]
  norm_num [futB, replenishSpec, sumTake, List.filterMap_cons]

/-- C2 counterexample: with a one-day horizon at date 0 and target date 5
beyond the horizon, propose_replenishment raises no error and returns with
no entries, while the claim requires a DateOutOfHorizonError; no such
error exists anywhere in the code. -/
theorem propose_replenishment_horizon_cex :
    propose_replenishment futA [("A", 10)] 5 = .ok [] := by rfl

/-- C2 (amended): when the target date lies beyond every date of the
forecast horizon, propose_replenishment silently returns with no entries
and raises no error. -/
theorem propose_replenishment_out_of_horizon (future : FutureMatrix)
    (inv : Inventory) (untilDate : Int) (lvl : String → Int)
    (hinv : ∀ sku ∈ future.cols, lookupInventory inv sku = .ok (lvl sku))
    (hbeyond : ∀ d ∈ future.rows, d < untilDate) :
    propose_replenishment future inv untilDate = .ok [] := by
  rw [propose_replenishment,
    replPerSku_ok future inv untilDate lvl future.cols hinv]
  congr 1
  rw [List.filterMap_eq_nil_iff]
  intro sku _
  rw [walkReplenish_none_of_beyond _ _ _ _ hbeyond]
  rfl

/-- C2 amended witness: SKU B with inventory 4 and target date 7 beyond
the two-date horizon. -/
theorem propose_replenishment_out_of_horizon_witness :
    propose_replenishment futB [("B", 4)] 7 = .ok [] :=
  propose_replenishment_out_of_horizon futB [("B", 4)] 7 (fun _ => 4)
    (by
      intro sku hsku
      rw [show futB.cols = ["B"] from rfl, List.mem_singleton] at hsku
      subst hsku
      rfl)
    (by
      intro d hd
      rw [show futB.rows = [0, 1] from rfl] at hd
      fin_cases hd <;> norm_num)

/-- C3: a SKU with a column in the future matrix but no row in the
inventory levels makes both simulator operations fail with the error
naming that SKU (the failed int() conversion of the empty selection),
rather than skipping it or defaulting its level to 0. -/
theorem missing_inventory_raises (future : FutureMatrix) (inv : Inventory)
    (untilDate : Int) (sku : String)
    (hcol : sku ∈ future.cols)
    (hmiss : ∀ p ∈ inv, p.1 ≠ sku)
    (hothers : ∀ s ∈ future.cols, s ≠ sku →
      ∃ q, lookupInventory inv s = .ok q) :
    predict_out_of_stock future inv = .error (.missingInventoryLevel sku)
      ∧ propose_replenishment future inv untilDate
          = .error (.missingInventoryLevel sku) :=
  ⟨oosPerSku_missing future inv sku hmiss future.cols hcol hothers,
   replPerSku_missing future inv untilDate sku hmiss future.cols hcol hothers⟩

/-- C3 witness: SKU A has a forecast column but the inventory levels are
empty; both operations fail naming A. -/
theorem missing_inventory_raises_witness :
    predict_out_of_stock futA [] = .error (.missingInventoryLevel "A")
      ∧ propose_replenishment futA [] 0
          = .error (.missingInventoryLevel "A") :=
  missing_inventory_raises futA [] 0 "A"
    (by rw [show futA.cols = ["A"] from rfl]; exact List.mem_singleton.mpr rfl)
    (by intro p hp; exact absurd hp (List.not_mem_nil p))
    (by
      intro s hs hne
      rw [show futA.cols = ["A"] from rfl, List.mem_singleton] at hs
      exact absurd hs hne)

/-- C4: the out-of-stock walk records exactly the first date at which the
running level, the starting inventory minus the cumulative forecast
through that date, becomes strictly negative, stopping there, and records
nothing when the level never goes negative, a level of exactly zero
counting as still in stock; with every successful lookup the operation
returns one such entry per column that stocks out; and for inventory 10
against daily sales 5, 5, 5 the recorded date is the third forecast day,
index 2. -/
theorem predict_out_of_stock_correct :
    (∀ (cell : Int → Rat) (dates : List Int) (level : Rat),
        walkOutOfStock cell dates level = firstNegDateSpec cell dates level)
    ∧ (∀ (future : FutureMatrix) (inv : Inventory) (lvl : String → Int),
        (∀ sku ∈ future.cols, lookupInventory inv sku = .ok (lvl sku)) →
        predict_out_of_stock future inv
          = .ok (future.cols.filterMap (fun sku =>
              (firstNegDateSpec (fun d => future.cell d sku) future.rows
                  ((lvl sku : Int) : Rat)).map (fun d => (sku, d)))))
    ∧ predict_out_of_stock futA3 [("A", 10)] = .ok [("A", (2 : Int))] := by
  refine ⟨fun cell dates level => walkOutOfStock_eq_spec cell dates level,
    fun future inv lvl hinv => ?_,
    by norm_num [predict_out_of_stock, futA3, oosPerSku, lookupInventory,
      walkOutOfStock]⟩
  rw [predict_out_of_stock, oosPerSku_ok future inv lvl future.cols hinv]
  have hfun : (fun sku =>
        (walkOutOfStock (fun d => future.cell d sku) future.rows
            ((lvl sku : Int) : Rat)).map (fun d => (sku, d)))
      = (fun sku =>
        (firstNegDateSpec (fun d => future.cell d sku) future.rows
            ((lvl sku : Int) : Rat)).map (fun d => (sku, d))) := by
    funext sku
    rw [walkOutOfStock_eq_spec]
  rw [hfun]

/-- C4 witness: SKU B with inventory 3 against forecasts 3 and 3 stocks
out at the second date, date 1, since the level is exactly 0, still in
stock, after the first date. -/
theorem predict_out_of_stock_correct_witness :
    predict_out_of_stock futB [("B", 3)] = .ok [("B", (1 : Int))] := by
  rw [predict_out_of_stock_correct.2.1 futB [("B", 3)] (fun _ => 3)
    (by
      intro sku hsku
      rw [show futB.cols = ["B"] from rfl, List.mem_singleton] at hsku
      subst hsku
      rfl)]
  norm_num [futB, firstNegDateSpec, sumTake, List.find?, List.filterMap_cons]

/-- C10: the first forecast date is always subtracted before the stopping
condition is tested, so with the target date on or before the first
forecast date the operation succeeds and records, for every column, the
first date forecast minus the starting level. -/
theorem replenish_until_first_date (future : FutureMatrix) (inv : Inventory)
    (untilDate : Int) (lvl : String → Int) (d0 : Int) (rest : List Int)
    (hrows : future.rows = d0 :: rest) (huntil : untilDate ≤ d0)
    (hinv : ∀ sku ∈ future.cols, lookupInventory inv sku = .ok (lvl sku)) :
    propose_replenishment future inv untilDate
      = .ok (future.cols.map (fun sku =>
          (sku, future.cell d0 sku - ((lvl sku : Int) : Rat)))) := by
  rw [propose_replenishment,
    replPerSku_ok future inv untilDate lvl future.cols hinv]
  congr 1
  have hwalk : ∀ sku : String,
      walkReplenish (fun d => future.cell d sku) future.rows untilDate
          ((lvl sku : Int) : Rat)
        = some (future.cell d0 sku - ((lvl sku : Int) : Rat)) := by
    intro sku
    rw [hrows, walkReplenish, if_pos huntil, neg_sub]
  have hfun : (fun sku =>
        (walkReplenish (fun d => future.cell d sku) future.rows untilDate
            ((lvl sku : Int) : Rat)).map (fun r => (sku, r)))
      = (fun sku => some (sku, future.cell d0 sku - ((lvl sku : Int) : Rat))) := by
    funext sku
    rw [hwalk sku]
    rfl
  rw [hfun]
  exact List.filterMap_eq_map _ ▸ rfl

/-- C10 witness: target date 0 equals the first forecast date of the
one-day horizon; SKU A gets quantity 5 - 10 = -5 recorded. -/
theorem replenish_until_first_date_witness :
    propose_replenishment futA [("A", 10)] 0
      = .ok [("A", (5 : Rat) - (10 : Rat))] := by
  rw [replenish_until_first_date futA [("A", 10)] 0 (fun _ => 10) 0 []
    (by rfl) (by norm_num)
    (by
      intro sku hsku
      rw [show futA.cols = ["A"] from rfl, List.mem_singleton] at hsku
      subst hsku
      rfl)]
  norm_num [futA]

end ClaimsDepletion

/-- An order line item as consumed by the aggregation: purchase date with
time of day already discarded, SellerSKU and integer QuantityOrdered; the
other CSV fields play no role in the core. -/
structure OrderItem where
  purchase_date : Int
  sku : String
  qty : Int
deriving DecidableEq, Repr

/-- A past-sales matrix: one row per date, one column per SKU, integer
cell values (sums of integer quantities; the zeros filled in for missing
date and SKU combinations leave every value integral). -/
structure PastMatrix where
  rows : List Int
  cols : List String
  cell : Int → String → Int

/-- Embeds the row mask of prepare_past: keep the items whose purchase
date lies in the window from start_date inclusive to today exclusive,
where start_date is today minus days_back. -/
def inWindow (today : Int) (days_back : Nat) (it : OrderItem) : Bool :=
  decide (today - (days_back : Int) ≤ it.purchase_date)
    && decide (it.purchase_date < today)

/-- The order items surviving the window mask of prepare_past. -/
def filteredItems (items : List OrderItem) (today : Int) (days_back : Nat) :
    List OrderItem :=
  items.filter (inWindow today days_back)

/-- The date of row i of the past matrix: start_date plus i days, the
entries of date_range(start_date, periods=days_back). -/
def rowDate (today : Int) (days_back : Nat) (i : Nat) : Int :=
  today - (days_back : Int) + (i : Int)

/-- Embeds prepare_past: filter the order items to the lookback window,
pivot them into a matrix with one row per date of
date_range(start_date, periods=days_back), one column per SellerSKU
observed among the filtered items, and as cell value the sum of
QuantityOrdered of the filtered items with that date and SKU, 0 when
there are none (the fillna); the columns are then reindexed in sorted
order. -/
def prepare_past (items : List OrderItem) (today : Int) (days_back : Nat) :
    PastMatrix :=
  { rows := (List.range days_back).map (rowDate today days_back)
  , cols := List.insertionSort (· ≤ ·)
      ((filteredItems items today days_back).map OrderItem.sku).dedup
  , cell := fun d s =>
      (((filteredItems items today days_back).filter (fun it =>
          decide (it.purchase_date = d) && decide (it.sku = s))).map
        OrderItem.qty).sum }

section AggregationLemmas

/-- Splitting a filtered sum along two mutually exclusive predicates. -/
theorem sum_filter_or_disjoint (f : OrderItem → Int)
    (p q : OrderItem → Bool) :
    ∀ (L : List OrderItem), (∀ a ∈ L, ¬(p a = true ∧ q a = true)) →
      ((L.filter (fun a => p a || q a)).map f).sum
        = ((L.filter p).map f).sum + ((L.filter q).map f).sum := by
  intro L
  induction L with
  | nil => intro _; simp
  | cons a L ih =>
      intro hdisj
      have hL : ∀ b ∈ L, ¬(p b = true ∧ q b = true) :=
        fun b hb => hdisj b (List.mem_cons_of_mem a hb)
      have ha := hdisj a (List.mem_cons_self a L)
      rw [List.filter_cons, List.filter_cons, List.filter_cons]
      cases hp : p a with
      | true =>
          have hq : q a = false := by
            cases hq : q a with
            | true => exact absurd ⟨hp, hq⟩ ha
            | false => rfl
          rw [hq]
          simp only [Bool.true_or, if_true, Bool.false_eq_true, if_false,
            List.map_cons, List.sum_cons]
          rw [ih hL]
          ring
      | false =>
          cases hq : q a with
          | true =>
              simp only [Bool.false_or, if_true, Bool.false_eq_true, if_false,
                List.map_cons, List.sum_cons]
              rw [ih hL]
              ring
          | false =>
              simp only [Bool.or_self, Bool.false_eq_true, if_false]
              exact ih hL

/-- Summing per-date filtered sums over a duplicate-free date list equals
one filtered sum over membership in that list. -/
theorem sum_over_dates (f : OrderItem → Int) (s : String)
    (L : List OrderItem) :
    ∀ (R : List Int), R.Nodup →
      (R.map (fun d => ((L.filter (fun it =>
            decide (it.purchase_date = d) && decide (it.sku = s))).map
          f).sum)).sum
        = ((L.filter (fun it =>
            decide (it.purchase_date ∈ R) && decide (it.sku = s))).map
          f).sum := by
  intro R
  induction R with
  | nil =>
      intro _
      have : L.filter (fun it =>
          decide (it.purchase_date ∈ ([] : List Int)) && decide (it.sku = s))
          = [] := by
        apply List.filter_eq_nil_iff.mpr
        intro it _
        simp
      rw [this]
      simp
  | cons d R ih =>
      intro hnd
      have hdR : d ∉ R := (List.nodup_cons.mp hnd).1
      have hR : R.Nodup := (List.nodup_cons.mp hnd).2
      have hsplit : L.filter (fun it =>
            decide (it.purchase_date ∈ d :: R) && decide (it.sku = s))
          = L.filter (fun it =>
            (decide (it.purchase_date = d) && decide (it.sku = s))
              || (decide (it.purchase_date ∈ R) && decide (it.sku = s))) := by
        apply List.filter_congr
        intro it _
        by_cases h1 : it.purchase_date = d
          <;> by_cases h2 : it.purchase_date ∈ R
          <;> by_cases h3 : it.sku = s
          <;> simp [List.mem_cons, h1, h2, h3]
      have hdisj : ∀ it ∈ L,
          ¬((decide (it.purchase_date = d) && decide (it.sku = s)) = true
            ∧ (decide (it.purchase_date ∈ R) && decide (it.sku = s)) = true) := by
        intro it _ ⟨h1, h2⟩
        rw [Bool.and_eq_true, decide_eq_true_eq, decide_eq_true_eq] at h1 h2
        exact hdR (h1.1 ▸ h2.1)
      rw [List.map_cons, List.sum_cons, ih hR, hsplit,
        sum_filter_or_disjoint f _ _ L hdisj]

/-- Filtering the window twice is the same as filtering it once. -/
theorem filteredItems_idem (items : List OrderItem) (today : Int)
    (days_back : Nat) :
    filteredItems (filteredItems items today days_back) today days_back
      = filteredItems items today days_back := by
  unfold filteredItems
  rw [List.filter_filter]
  apply List.filter_congr
  intro a _
  cases inWindow today days_back a <;> simp

/-- Aggregating the already-filtered items gives the same matrix. -/
theorem prepare_past_filter (items : List OrderItem) (today : Int)
    (days_back : Nat) :
    prepare_past (filteredItems items today days_back) today days_back
      = prepare_past items today days_back := by
  simp only [prepare_past, filteredItems_idem]

end AggregationLemmas

section ClaimsAggregation

/-- C5: for a positive lookback the past matrix has exactly days_back
rows, listing in strictly increasing order exactly the dates from
start_date inclusive to today exclusive with no gaps; it has exactly one
column per SKU observed among the items inside the window, the columns
duplicate-free and sorted ascending; a date and SKU combination with no
recorded sales holds 0; and with nonnegative input quantities no cell is
negative. -/
theorem prepare_past_dense (items : List OrderItem) (today : Int)
    (days_back : Nat) (hpos : 0 < days_back)
    (hqty : ∀ it ∈ items, 0 ≤ it.qty) :
    (prepare_past items today days_back).rows.length = days_back
    ∧ (∀ d : Int, d ∈ (prepare_past items today days_back).rows
        ↔ (today - (days_back : Int) ≤ d ∧ d < today))
    ∧ List.Sorted (· < ·) (prepare_past items today days_back).rows
    ∧ (∀ s : String, s ∈ (prepare_past items today days_back).cols
        ↔ ∃ it ∈ items, inWindow today days_back it = true ∧ it.sku = s)
    ∧ (prepare_past items today days_back).cols.Nodup
    ∧ List.Sorted (· ≤ ·) (prepare_past items today days_back).cols
    ∧ (∀ (d : Int) (s : String),
        (∀ it ∈ items, ¬(it.purchase_date = d ∧ it.sku = s
          ∧ inWindow today days_back it = true)) →
        (prepare_past items today days_back).cell d s = 0)
    ∧ (∀ (d : Int) (s : String),
        0 ≤ (prepare_past items today days_back).cell d s) := by
  refine ⟨?_, ?_, ?_, ?_, ?_, ?_, ?_, ?_⟩
  · simp only [prepare_past, List.length_map, List.length_range]
  · intro d
    simp only [prepare_past, List.mem_map, List.mem_range]
    constructor
    · rintro ⟨i, hi, rfl⟩
      simp only [rowDate]
      omega
    · intro ⟨h1, h2⟩
      refine ⟨(d - (today - (days_back : Int))).toNat, by omega, ?_⟩
      simp only [rowDate]
      omega
  · simp only [prepare_past]
    have hpair := List.pairwise_lt_range days_back
    refine List.Pairwise.map _ (fun a b hab => ?_) hpair
    simp only [rowDate]
    omega
  · intro s
    simp only [prepare_past, List.mem_insertionSort, List.mem_dedup,
      List.mem_map, filteredItems, List.mem_filter]
    constructor
    · rintro ⟨it, ⟨hit, hw⟩, rfl⟩
      exact ⟨it, hit, hw, rfl⟩
    · rintro ⟨it, hit, hw, rfl⟩
      exact ⟨it, ⟨hit, hw⟩, rfl⟩
  · simp only [prepare_past]
    exact ((List.perm_insertionSort _ _).nodup_iff).mpr (List.nodup_dedup _)
  · simp only [prepare_past]
    exact List.sorted_insertionSort _ _
  · intro d s hnone
    simp only [prepare_past]
    have : (filteredItems items today days_back).filter (fun it =>
        decide (it.purchase_date = d) && decide (it.sku = s)) = [] := by
      apply List.filter_eq_nil_iff.mpr
      intro it hit
      rw [filteredItems, List.mem_filter] at hit
      intro hc
      rw [Bool.and_eq_true, decide_eq_true_eq, decide_eq_true_eq] at hc
      exact hnone it hit.1 ⟨hc.1, hc.2, hit.2⟩
    rw [this]
    rfl
  · intro d s
    simp only [prepare_past]
    apply List.sum_nonneg
    intro x hx
    rw [List.mem_map] at hx
    obtain ⟨it, hit, rfl⟩ := hx
    have h1 := List.mem_filter.mp hit
    have h2 : it ∈ items.filter (inWindow today days_back) := h1.1
    exact hqty it (List.mem_filter.mp h2).1

/-- C5 witness: one item for SKU A on date 1 with quantity 2, aggregated
over the window from 1 to 3. -/
theorem prepare_past_dense_witness :
    (prepare_past [⟨1, "A", 2⟩] 3 2).rows.length = 2
    ∧ (prepare_past [⟨1, "A", 2⟩] 3 2).cols.Nodup
    ∧ List.Sorted (· ≤ ·) (prepare_past [⟨1, "A", 2⟩] 3 2).cols
    ∧ (0 ∈ (prepare_past [⟨1, "A", 2⟩] 3 2).rows
        ↔ ((3 : Int) - (2 : Nat) ≤ 0 ∧ (0 : Int) < 3)) := by
  have h := prepare_past_dense [⟨1, "A", 2⟩] 3 2 (by norm_num)
    (by intro it hit; rw [List.mem_singleton] at hit; subst hit; norm_num)
  exact ⟨h.1, h.2.2.2.2.1, h.2.2.2.2.2.1, h.2.1 0⟩

/-- C6: the sum of a column of the past matrix equals the sum of the
quantities of the input items with that SKU whose purchase date lies in
the window; items outside the window contribute nothing, and items
sharing a date and SKU are summed. -/
theorem prepare_past_conservation (items : List OrderItem) (today : Int)
    (days_back : Nat) (s : String) :
    ((prepare_past items today days_back).rows.map
        (fun d => (prepare_past items today days_back).cell d s)).sum
      = ((items.filter (fun it =>
          inWindow today days_back it && decide (it.sku = s))).map
        OrderItem.qty).sum := by
  have hnodup : (prepare_past items today days_back).rows.Nodup := by
    simp only [prepare_past]
    apply List.Nodup.map
    · intro a b hab
      simp only [rowDate] at hab
      omega
    · exact List.nodup_range days_back
  have hsum := sum_over_dates OrderItem.qty s
    (filteredItems items today days_back)
    (prepare_past items today days_back).rows hnodup
  calc ((prepare_past items today days_back).rows.map
        (fun d => (prepare_past items today days_back).cell d s)).sum
      = (((filteredItems items today days_back).filter (fun it =>
          decide (it.purchase_date ∈ (prepare_past items today days_back).rows)
            && decide (it.sku = s))).map OrderItem.qty).sum := hsum
    _ = (((filteredItems items today days_back).filter (fun it =>
          decide (it.sku = s))).map OrderItem.qty).sum := by
        congr 1
        congr 1
        apply List.filter_congr
        intro it hit
        have hw : inWindow today days_back it = true :=
          (List.mem_filter.mp hit).2
        have hmem : it.purchase_date ∈ (prepare_past items today days_back).rows := by
          simp only [prepare_past, List.mem_map, List.mem_range]
          rw [inWindow, Bool.and_eq_true, decide_eq_true_eq,
            decide_eq_true_eq] at hw
          refine ⟨(it.purchase_date - (today - (days_back : Int))).toNat,
            by omega, ?_⟩
          simp only [rowDate]
          omega
        simp [hmem]
    _ = ((items.filter (fun it =>
          inWindow today days_back it && decide (it.sku = s))).map
        OrderItem.qty).sum := by
        rw [filteredItems, List.filter_filter]
        congr 1
        congr 1
        apply List.filter_congr
        intro a _
        exact Bool.and_comm _ _

end ClaimsAggregation

/-- The historical daily series of one column of the past matrix, oldest
first: the values a forecaster is fitted on. -/
def colVals (past : PastMatrix) (s : String) : List Int :=
  past.rows.map (fun d => past.cell d s)

/-- The arithmetic mean of a history, as a rational.  Modelled from the
spec for the external library call: NaiveForecaster with the mean strategy
is part of sktime, not of this repository; as documented in the
predict_future docstring and in the spec, fitting it on a history and
predicting makes every forecasted value the arithmetic mean of the
history.  For an empty history the mean here is 0 (division by zero yields
0 for rationals), matching the spec stipulation that an empty history
forecasts 0. -/
def naiveMean (history : List Int) : Rat :=
  (history.sum : Rat) / (history.length : Rat)

/-- The naive mean forecasting strategy: the mean of the history repeated
for every one of the horizon days. -/
def naiveMeanForecast (history : List Int) (horizon : Nat) : List Rat :=
  List.replicate horizon (naiveMean history)

/-- The date of row i of the future matrix: today plus i days, the
entries of date_range(today, periods=days_in_future). -/
def futureDate (today : Int) (i : Nat) : Int :=
  today + (i : Int)

/-- Embeds the body of predict_future once the future index exists: a
matrix with one row per date of date_range(today, periods=n), the same
columns as the past matrix, and in every row of a column the mean of that
column of the past matrix. -/
def mkFuture (past : PastMatrix) (today : Int) (n : Nat) : FutureMatrix :=
  { rows := (List.range n).map (futureDate today)
  , cols := past.cols
  , cell := fun _ s => naiveMean (colVals past s) }

/-- Embeds predict_future: pandas date_range raises ValueError on a
negative period count, and otherwise the future matrix is built with one
naive mean forecast per column of the past matrix.  No validation of the
horizon takes place in the source: zero is accepted and produces an empty
date index. -/
def predict_future (past : PastMatrix) (today : Int) (days_in_future : Int) :
    Except PyErr FutureMatrix :=
  if days_in_future < 0 then .error .valueError
  else .ok (mkFuture past today days_in_future.toNat)

/-- The row index and column list of a forecast result, when it is not an
error. -/
def futureShape (e : Except PyErr FutureMatrix) :
    Option (List Int × List String) :=
  e.toOption.map (fun m => (m.rows, m.cols))

section ClaimsForecast

/-- C7: every value the naive mean strategy forecasts equals the
arithmetic mean of the history, the columns of the built future matrix
are exactly that constant forecast over the horizon, the history 2, 4, 6
with horizon 3 forecasts 4, 4, 4, and an empty or all-zero history
forecasts 0 for every horizon day. -/
theorem naive_mean_strategy_correct :
    (∀ (past : PastMatrix) (today : Int) (n : Nat) (s : String),
        (mkFuture past today n).rows.map
            (fun d => (mkFuture past today n).cell d s)
          = naiveMeanForecast (colVals past s) n)
    ∧ (∀ (h : List Int) (n : Nat), ∀ x ∈ naiveMeanForecast h n,
        x = (h.sum : Rat) / (h.length : Rat))
    ∧ naiveMeanForecast [2, 4, 6] 3 = [4, 4, 4]
    ∧ (∀ n : Nat, naiveMeanForecast [] n = List.replicate n 0)
    ∧ (∀ (h : List Int) (n : Nat), (∀ x ∈ h, x = 0) →
        naiveMeanForecast h n = List.replicate n 0) := by
  refine ⟨?_, ?_, ?_, ?_, ?_⟩
  · intro past today n s
    simp only [mkFuture, naiveMeanForecast]
    rw [List.map_const', List.length_map, List.length_range]
  · intro h n x hx
    rw [naiveMeanForecast] at hx
    rw [List.eq_of_mem_replicate hx, naiveMean]
  · rw [naiveMeanForecast, naiveMean]
    norm_num [List.replicate]
  · intro n
    rw [naiveMeanForecast, naiveMean]
    norm_num
  · intro h n hzero
    rw [naiveMeanForecast, naiveMean, List.sum_eq_zero hzero]
    norm_num

/-- C7 witness: the all-zero history 0, 0 forecasts 0 for both days of a
two-day horizon. -/
theorem naive_mean_strategy_correct_witness :
    naiveMeanForecast [0, 0] 2 = List.replicate 2 0 :=
  naive_mean_strategy_correct.2.2.2.2 [0, 0] 2
    (by intro x hx; fin_cases hx <;> rfl)

/-- C8 counterexample: a forecast horizon of 0 days is accepted without
any error: over an empty item set with a three-day lookback,
predict_future at horizon 0 returns a future matrix with an empty row
index and no columns, while the claim requires failure with an
InvalidHorizonError; no such error exists anywhere in the code. -/
theorem predict_future_horizon_cex :
    futureShape (predict_future (prepare_past [] 100 3) 100 0)
      = some ([], []) := by rfl

/-- C8 (amended): the forecast operation performs no horizon validation of
its own: a zero horizon is silently accepted and yields a future matrix
with an empty row index, and a negative horizon fails with the ValueError
of the underlying date_range call, not with an InvalidHorizonError, which
does not exist in the code. -/
theorem predict_future_no_horizon_validation :
    (∀ (past : PastMatrix) (today : Int),
        predict_future past today 0 = .ok (mkFuture past today 0))
    ∧ (∀ (past : PastMatrix) (today : Int) (h : Int), h < 0 →
        predict_future past today h = .error .valueError) := by
  constructor
  · intro past today
    rfl
  · intro past today h hneg
    rw [predict_future, if_pos hneg]

/-- C8 amended witness: horizon -1 on an empty past matrix fails with the
ValueError. -/
theorem predict_future_no_horizon_validation_witness :
    predict_future (prepare_past [] 100 3) 100 (-1) = .error .valueError :=
  predict_future_no_horizon_validation.2 (prepare_past [] 100 3) 100 (-1)
    (by norm_num)

end ClaimsForecast

/-- The state of an OutflowPredicter object: the stored order items, the
date taken as today, and the past and future matrices computed so far
(empty placeholders before the corresponding method has run; the source
object simply lacks the attribute then). -/
structure OPState where
  order_items : List OrderItem
  today : Int
  past : PastMatrix
  future : FutureMatrix

/-- The state of a freshly constructed OutflowPredicter: the order items
read from the CSV and today's date. -/
def mkOutflowPredicter (items : List OrderItem) (today : Int) : OPState :=
  { order_items := items
  , today := today
  , past := { rows := [], cols := [], cell := fun _ _ => 0 }
  , future := { rows := [], cols := [], cell := fun _ _ => 0 } }

/-- Embeds the prepare_past method as a state transformer: the method
overwrites self.order_items with the rows inside the window and stores the
pivoted matrix of those filtered rows as self.past (prepare_past filters
internally, so pivoting the original items equals pivoting the filtered
ones). -/
def preparePastS (st : OPState) (days_back : Nat) : OPState :=
  { st with
    order_items := filteredItems st.order_items st.today days_back
  , past := prepare_past st.order_items st.today days_back }

/-- Embeds the predict_future method as a state transformer for a
nonnegative horizon: it stores the forecast matrix built from self.past as
self.future and touches nothing else. -/
def predictFutureS (st : OPState) (days_in_future : Nat) : OPState :=
  { st with future := mkFuture st.past st.today days_in_future }

section ClaimsState

/-- C9 counterexample: a predicter holding one order item five days old is
aggregated with a two-day lookback, which silently discards the item from
the stored order items; aggregating the same object again with a ten-day
lookback then produces a past matrix with no columns, while a fresh
invocation with the ten-day lookback produces a column for SKU A: the
second aggregation does not equal a fresh one. -/
theorem pipeline_state_cex :
    (preparePastS (preparePastS (mkOutflowPredicter [⟨95, "A", 1⟩] 100) 2)
        10).past.cols = []
      ∧ (preparePastS (mkOutflowPredicter [⟨95, "A", 1⟩] 100) 10).past.cols
          = ["A"] := by
  constructor <;> rfl

/-- C9 (amended): the pipeline is deterministic and idempotent: re-running
aggregation and forecasting on the same predicter with the same lookback
and horizon yields the identical past and future matrices; but because
aggregation overwrites the stored order items with their filtered window,
a second aggregation works on the filtered items, which in general differs
from a fresh invocation when the lookback grows. -/
theorem pipeline_idempotent (st : OPState) (db h : Nat) :
    (predictFutureS (preparePastS (predictFutureS (preparePastS st db) h)
        db) h).past
      = (predictFutureS (preparePastS st db) h).past
    ∧ (predictFutureS (preparePastS (predictFutureS (preparePastS st db) h)
        db) h).future
      = (predictFutureS (preparePastS st db) h).future
    ∧ (predictFutureS (preparePastS (predictFutureS (preparePastS st db) h)
        db) h).order_items
      = (predictFutureS (preparePastS st db) h).order_items := by
  refine ⟨?_, ?_, ?_⟩
  · show prepare_past (filteredItems st.order_items st.today db) st.today db
      = prepare_past st.order_items st.today db
    exact prepare_past_filter st.order_items st.today db
  · show mkFuture (prepare_past (filteredItems st.order_items st.today db)
        st.today db) st.today h
      = mkFuture (prepare_past st.order_items st.today db) st.today h
    rw [prepare_past_filter st.order_items st.today db]
  · show filteredItems (filteredItems st.order_items st.today db) st.today db
      = filteredItems st.order_items st.today db
    exact filteredItems_idem st.order_items st.today db

end ClaimsState

end FbaReplenisher
